import Mathlib

/-!
# Telemetry dashboard: server (`lvgl-app.c`) and sensor client (`client_sensor.c`)

A shallow embedding of the two C programs of the repository and the
properties proved about them.

Modelling conventions.

* A C `float`/`double` value is represented by the rational number it denotes
  (every finite floating-point value is a rational).  Rounding of the
  arithmetic results of the two programs to binary32 is not represented; the
  decoder of the wire line rounds what it parses to binary32 (`toFloat32`).
  NaN and the infinities are outside the model.  `FLT_MAX` bounds the
  magnitude of a finite `float`.
* C strings are Lean strings; `snprintf` truncates to the buffer size.
* Calls into the operating system, the C library, LVGL, FreeRTOS and the sensor
  driver are recorded as events, in program order.  What those calls return is
  supplied by an environment (an oracle indexed by the number of the call).
* `while (1)` loops take a fuel argument: the trace produced with fuel `n` is
  the trace of the execution up to the `n`-th evaluation of the loop head.
-/

/-! # Definitions -/

/-! ## C text formatting shared by both programs -/

/-- The decimal digit character of `d % 10`, i.e. `'0' + d % 10`. -/
def digitChar (d : Nat) : Char := Char.ofNat (48 + d % 10)

/-- Decimal digits of `n`, most significant first; the first argument bounds
the number of digits still to be produced. -/
def digitsFuel : Nat → Nat → List Char
  | 0, n => [digitChar n]
  | f + 1, n => if n < 10 then [digitChar n] else digitsFuel f (n / 10) ++ [digitChar n]

/-- Decimal representation of a natural number (`"0"` for zero). -/
def natDigits (n : Nat) : List Char := digitsFuel n n

/-- The magnitude of `x`, times ten, rounded to the nearest integer with ties
to even: the digits that the conversion `%.1f` prints for `x`. -/
def roundTenths (x : ℚ) : Nat :=
  let a := x.num.natAbs * 10
  let d := x.den
  let q := a / d
  let r := a % d
  if 2 * r < d then q else if d < 2 * r then q + 1 else if q % 2 = 0 then q else q + 1

/-- The C conversion `%.1f` applied to the value `x`: optional minus sign,
integer digits, a point and one fractional digit. -/
def fmt1 (x : ℚ) : List Char :=
  (if x.num < 0 then ['-'] else []) ++ natDigits (roundTenths x / 10) ++
    ['.', digitChar (roundTenths x)]

/-- Longest run of whole characters from the front of a text that fits in
the given number of bytes of UTF-8. -/
def takeBytes : Nat → List Char → List Char
  | _, [] => []
  | n, c :: cs => if c.utf8Size ≤ n then c :: takeBytes (n - c.utf8Size) cs else []

/-- The C call `snprintf(buf, size, ...)`, given the fully formatted text: the
buffer receives at most `size - 1` bytes of it (and the terminating NUL).  A
character of several bytes that does not fit whole is left out. -/
def snprintf (size : Nat) (s : String) : String := String.mk (takeBytes (size - 1) s.data)

/-- The format `"%.1f,%.1f\n"` applied to a temperature and a humidity. -/
def wire_format (temperature humidity : ℚ) : String :=
  String.mk (fmt1 temperature ++ [','] ++ fmt1 humidity ++ ['\n'])

namespace LvglApp

/-- `BUF_SIZE` of `lvgl-app.c`. -/
def BUF_SIZE : Nat := 256

/-- The struct `sensor_data_t` without its mutex; locking is recorded in the
event trace. -/
structure sensor_data_t where
  temperature : ℚ
  humidity : ℚ
  pred_temperature : ℚ
  pred_humidity : ℚ
  new_data : Bool
deriving DecidableEq

/-- The static initialiser of the global `sensor_data`. -/
def sensor_data_init : sensor_data_t :=
  { temperature := 0, humidity := 0, pred_temperature := 0, pred_humidity := 0,
    new_data := false }

/-- State of the C library random number generator: the sequence of values
that `rand()` returns from the seed on, and how many have been drawn. -/
structure RandState where
  draws : Nat → Nat
  pos : Nat

/-- The C library call `rand()`: returns the next value and advances the
generator. -/
def rand (s : RandState) : Nat × RandState := (s.draws s.pos, { s with pos := s.pos + 1 })

/-- Function `random_temperature`: `15.0 + (rand() % 200) / 10.0`. -/
def random_temperature (s : RandState) : ℚ × RandState :=
  (15 + (((rand s).1 % 200 : Nat) : ℚ) / 10, (rand s).2)

/-- Function `random_humidity`: `30.0 + (rand() % 500) / 10.0`. -/
def random_humidity (s : RandState) : ℚ × RandState :=
  (30 + (((rand s).1 % 500 : Nat) : ℚ) / 10, (rand s).2)

/-- Function `predict_temperature`: trend `(rand() % 20 - 10) / 10.0`, then
noise `(rand() % 10) / 10.0`, result `current + trend + noise`. -/
def predict_temperature (current : ℚ) (s : RandState) : ℚ × RandState :=
  let trend : ℚ := ((((rand s).1 % 20 : Nat) : Int) - 10 : Int) / 10
  let s1 := (rand s).2
  let noise : ℚ := (((rand s1).1 % 10 : Nat) : ℚ) / 10
  (current + trend + noise, (rand s1).2)

/-- Function `predict_humidity`: trend `(rand() % 30 - 15) / 10.0`, then
noise `(rand() % 10) / 10.0`, result `current + trend + noise`. -/
def predict_humidity (current : ℚ) (s : RandState) : ℚ × RandState :=
  let trend : ℚ := ((((rand s).1 % 30 : Nat) : Int) - 15 : Int) / 10
  let s1 := (rand s).2
  let noise : ℚ := (((rand s1).1 % 10 : Nat) : ℚ) / 10
  (current + trend + noise, (rand s1).2)

/-- Calls made by the server thread and by the UI timer, in program order.
`store` stands for the assignments to the fields of `sensor_data` made in one
critical section and carries the content of the cell after them; `log` stands
for `perror` and `fprintf` and carries the message without its arguments. -/
inductive Event where
  | accept (cfd : Int)
  | write (cfd : Int) (data : String) (ret : Int)
  | pthread_mutex_lock
  | store (cell : sensor_data_t)
  | pthread_mutex_unlock
  | sleep (seconds : Nat)
  | close (cfd : Int)
  | lv_label_set_text (label : Option Nat) (text : String)
  | lv_obj_set_style_text_color (label : Option Nat) (color : Nat)
  | log (msg : String)
deriving DecidableEq

/-- State of the server thread between statements: the shared cell and the
random number generator. -/
structure ServerState where
  sensor_data : sensor_data_t
  rng : RandState

/-- Critical section of `server_thread_func` (lines 167 to 173): lock, assign
the four values and `new_data = true`, unlock. -/
def server_publish (temp hum pred_temp pred_hum : ℚ) (cell : sensor_data_t) :
    sensor_data_t × List Event :=
  let cell1 := { cell with temperature := temp }
  let cell2 := { cell1 with humidity := hum }
  let cell3 := { cell2 with pred_temperature := pred_temp }
  let cell4 := { cell3 with pred_humidity := pred_hum }
  let cell5 := { cell4 with new_data := true }
  (cell5, [Event.pthread_mutex_lock, Event.store cell5, Event.pthread_mutex_unlock])

/-- The line the server writes: `snprintf(data, BUF_SIZE, "%.1f,%.1f\n", temp, hum)`. -/
def server_line (temp hum : ℚ) : String := snprintf BUF_SIZE (wire_format temp hum)

/-- Four values produced together: a reading and its forecast. -/
structure Sample where
  temperature : ℚ
  humidity : ℚ
  pred_temperature : ℚ
  pred_humidity : ℚ

/-- The four calls at the head of an iteration (lines 153 to 157), in order:
`random_temperature`, `random_humidity`, `predict_temperature(temp)`,
`predict_humidity(hum)`. -/
def draw_sample (rng : RandState) : Sample × RandState :=
  let temp := (random_temperature rng).1
  let rng1 := (random_temperature rng).2
  let hum := (random_humidity rng1).1
  let rng2 := (random_humidity rng1).2
  let pred_temp := (predict_temperature temp rng2).1
  let rng3 := (predict_temperature temp rng2).2
  let pred_hum := (predict_humidity hum rng3).1
  let rng4 := (predict_humidity hum rng3).2
  ({ temperature := temp, humidity := hum, pred_temperature := pred_temp,
     pred_humidity := pred_hum }, rng4)

/-- The `for (int i = 0; i < 60; i++)` loop of `server_thread_func` (lines 152
to 178).  The first argument is the number of iterations left (`60 - i`), the
second is `i`; `wret i` is what the call of `write` in iteration `i` returns. -/
def session_loop (cfd : Int) (wret : Nat → Int) : Nat → Nat → ServerState →
    ServerState × List Event
  | 0, _, st => (st, [])
  | n + 1, i, st =>
    let s := (draw_sample st.rng).1
    let rng4 := (draw_sample st.rng).2
    let data := server_line s.temperature s.humidity
    if wret i = -1 then
      ({ sensor_data := st.sensor_data, rng := rng4 },
        [Event.write cfd data (wret i), Event.log "write"])
    else
      let pub := server_publish s.temperature s.humidity s.pred_temperature s.pred_humidity
        st.sensor_data
      let rest := session_loop cfd wret n (i + 1) { sensor_data := pub.1, rng := rng4 }
      (rest.1,
        Event.write cfd data (wret i) :: pub.2 ++ [Event.log "Sent", Event.sleep 1] ++ rest.2)

/-- One session: the loop started at `i = 0`. -/
def server_session (cfd : Int) (wret : Nat → Int) (st : ServerState) :
    ServerState × List Event :=
  session_loop cfd wret 60 0 st

/-- The `while (1)` accept loop of `server_thread_func` (lines 134 to 182).
`acc k` is what the `k`-th call of `accept` returns and `wret k` gives the
results of the writes on that connection.  The first argument is fuel, the
second the number of calls of `accept` made so far. -/
def accept_loop (acc : Nat → Int) (wret : Nat → Nat → Int) : Nat → Nat → ServerState →
    ServerState × List Event
  | 0, _, st => (st, [])
  | fuel + 1, k, st =>
    let cfd := acc k
    if cfd = -1 then
      let rest := accept_loop acc wret fuel (k + 1) st
      (rest.1, Event.accept cfd :: Event.log "accept" :: rest.2)
    else
      let ses := server_session cfd (wret k) st
      let rest := accept_loop acc wret fuel (k + 1) ses.1
      (rest.1, Event.accept cfd :: Event.log "Connection from" :: ses.2 ++
        [Event.close cfd, Event.log "Client disconnected"] ++ rest.2)

/-- The global label pointers of `lvgl-app.c`; `none` is `NULL`. -/
structure Widgets where
  temp_label : Option Nat
  hum_label : Option Nat
  pred_temp_label : Option Nat
  pred_hum_label : Option Nat
  status_label : Option Nat
  time_label : Option Nat

/-- Text put on a value label: `snprintf(buf, sizeof(buf), "%.1f" unit, v)`
with `char buf[64]`. -/
def label_text (v : ℚ) (unit : String) : String := snprintf 64 (String.mk (fmt1 v) ++ unit)

/-- Function `update_ui_timer` (lines 190 to 221). -/
def update_ui_timer (ui : Widgets) (cell : sensor_data_t) : sensor_data_t × List Event :=
  if ui.temp_label = none ∨ ui.hum_label = none then (cell, [])
  else if cell.new_data = true then
    let cell1 := { cell with new_data := false }
    (cell1,
      [Event.pthread_mutex_lock,
       Event.lv_label_set_text ui.temp_label (label_text cell.temperature "°C"),
       Event.lv_label_set_text ui.hum_label (label_text cell.humidity "%"),
       Event.lv_label_set_text ui.pred_temp_label (label_text cell.pred_temperature "°C"),
       Event.lv_label_set_text ui.pred_hum_label (label_text cell.pred_humidity "%"),
       Event.lv_label_set_text ui.status_label "● LIVE",
       Event.lv_obj_set_style_text_color ui.status_label 0x4CAF50,
       Event.store cell1,
       Event.pthread_mutex_unlock])
  else (cell, [Event.pthread_mutex_lock, Event.pthread_mutex_unlock])

end LvglApp

/-! ## The client: `client_sensor.c` -/

namespace ClientSensor

end ClientSensor

/-! ## Decoding a wire line -/

namespace LvglApp

/-! ## Predicates on traces and inputs used for evaluation -/

/-- A store into the shared cell. -/
def isPublish : Event → Bool
  | Event.store _ => true
  | _ => false

/-- A call of `write`. -/
def isWrite : Event → Bool
  | Event.write _ _ _ => true
  | _ => false

/-- A call of `write` that did not return `-1`. -/
def isWriteOk : Event → Bool
  | Event.write _ _ ret => decide (ret ≠ -1)
  | _ => false

/-- A call of `close`. -/
def isClose : Event → Bool
  | Event.close _ => true
  | _ => false

/-- A call that waits on the network or the clock: `accept`, `write`, `sleep`, `close`. -/
def isNetworkCall : Event → Bool
  | Event.accept _ => true
  | Event.write _ _ _ => true
  | Event.sleep _ => true
  | Event.close _ => true
  | _ => false

/-- A call into LVGL. -/
def isRenderCall : Event → Bool
  | Event.lv_label_set_text _ _ => true
  | Event.lv_obj_set_style_text_color _ _ => true
  | _ => false

/-- The events of a trace that occur while the mutex is held; the first
argument tells whether it is held at the start. -/
def heldEvents : Bool → List Event → List Event
  | _, [] => []
  | _, Event.pthread_mutex_lock :: es => heldEvents true es
  | _, Event.pthread_mutex_unlock :: es => heldEvents false es
  | held, e :: es => if held then e :: heldEvents held es else heldEvents held es

/-- Lock and unlock alternate, starting from the given state of the mutex, and
the mutex is free at the end of the trace. -/
def lockBalanced : Bool → List Event → Bool
  | held, [] => !held
  | held, Event.pthread_mutex_lock :: es => !held && lockBalanced true es
  | held, Event.pthread_mutex_unlock :: es => held && lockBalanced false es
  | held, _ :: es => lockBalanced held es

/-- The publish step of the server applied to a sample. -/
def publish (a : Sample) (cell : sensor_data_t) : sensor_data_t × List Event :=
  server_publish a.temperature a.humidity a.pred_temperature a.pred_humidity cell

/-- The cell holding a sample with `new_data` set: what a publish leaves. -/
def fresh_cell (a : Sample) : sensor_data_t :=
  { temperature := a.temperature, humidity := a.humidity,
    pred_temperature := a.pred_temperature, pred_humidity := a.pred_humidity,
    new_data := true }

/-- Label pointers as `create_dashboard` leaves them: all six set. -/
def ui_ready : Widgets :=
  { temp_label := some 1, hum_label := some 2, pred_temp_label := some 3,
    pred_hum_label := some 4, status_label := some 5, time_label := some 6 }

/-- A sample: reading `(21.3, 48.0)` with forecast `(20.9, 49.5)`. -/
def sample_a : Sample :=
  { temperature := 213 / 10, humidity := 48, pred_temperature := 209 / 10,
    pred_humidity := 99 / 2 }

/-- A sample: reading `(22.5, 55.0)` with forecast `(23.1, 54.2)`. -/
def sample_b : Sample :=
  { temperature := 45 / 2, humidity := 55, pred_temperature := 231 / 10,
    pred_humidity := 271 / 5 }

/-- In every initial segment, publishes number at most `k` more than
successful writes. -/
def PublishBounded (k : Nat) (tr : List Event) : Prop :=
  ∀ p t, tr = p ++ t → p.countP isPublish ≤ p.countP isWriteOk + k

/-- Every store in the trace comes directly after a successful write of the
line of the stored reading on `cfd` and the lock. -/
def StoreFollowsWrite (cfd : Int) (tr : List Event) : Prop :=
  ∀ pre c post, tr = pre ++ Event.store c :: post →
    ∃ pre1 ret, ret ≠ -1 ∧
      pre = pre1 ++ [Event.write cfd (server_line c.temperature c.humidity) ret,
        Event.pthread_mutex_lock]

/-- A failed write is followed in the trace only by the report of the error. -/
def FailedWriteEnds (tr : List Event) : Prop :=
  ∀ pre cfd data post, tr = pre ++ Event.write cfd data (-1) :: post →
    post = [Event.log "write"]

/-- Every call of `write` in the trace is on `cfd` and carries one line of the
wire format: the text `"%.1f,%.1f\n"` of some pair of values, whole, with its
single newline at the end. -/
def WritesLines (cfd : Int) (tr : List Event) : Prop :=
  ∀ pre cfd1 data ret post, tr = pre ++ Event.write cfd1 data ret :: post →
    cfd1 = cfd ∧ (∃ t h : ℚ, data = wire_format t h) ∧
    data.data.count '\n' = 1 ∧ data.data.getLast? = some '\n'

/-- State of the server thread at the start: initial cell, generator at its seed. -/
def server_start (draws : Nat → Nat) : ServerState :=
  { sensor_data := sensor_data_init, rng := { draws := draws, pos := 0 } }

/-- Write results of a session whose third write fails. -/
def third_write_fails (i : Nat) : Int := if i = 2 then -1 else 10

/-- A generator that returns the same value at every call. -/
def rng_const (v pos : Nat) : RandState := { draws := fun _ => v, pos := pos }

end LvglApp

namespace ClientSensor

end ClientSensor

/-- A character of the wire text other than the separators: a digit, the
minus sign or the point. -/
def IsNumeralChar (c : Char) : Prop :=
  c.utf8Size = 1 ∧ c ≠ ',' ∧ c ≠ '\n'

/-- A decimal digit character. -/
def IsDigitChar (c : Char) : Prop :=
  c.utf8Size = 1 ∧ c ≠ ',' ∧ c ≠ '\n' ∧ c ≠ '.' ∧ c ≠ '-'

/-! # Theorems -/

/-- Splitting a list whose head is known at an occurrence of an element. -/
theorem cons_eq_append_cons {α : Type} (e x : α) (tr pre post : List α)
    (h : e :: tr = pre ++ x :: post) :
    (pre = [] ∧ e = x ∧ tr = post) ∨ ∃ pre1, pre = e :: pre1 ∧ tr = pre1 ++ x :: post := by
  cases pre with
  | nil =>
    simp only [List.nil_append, List.cons.injEq] at h
    exact Or.inl ⟨rfl, h.1, h.2⟩
  | cons a pre1 =>
    simp only [List.cons_append, List.cons.injEq] at h
    exact Or.inr ⟨pre1, by rw [h.1], h.2⟩

/-! ## Text of the wire format -/

theorem isDigitChar_digitChar (d : Nat) : IsDigitChar (digitChar d) := by
  have h : d % 10 < 10 := Nat.mod_lt d (by decide)
  unfold digitChar
  generalize d % 10 = m at h
  have hm : m = 0 ∨ m = 1 ∨ m = 2 ∨ m = 3 ∨ m = 4 ∨ m = 5 ∨ m = 6 ∨ m = 7 ∨ m = 8 ∨ m = 9 := by
    omega
  unfold IsDigitChar
  rcases hm with h | h | h | h | h | h | h | h | h | h <;> subst h <;> decide

theorem digitsFuel_isDigit (f : Nat) : ∀ n, ∀ c ∈ digitsFuel f n, IsDigitChar c := by
  induction f with
  | zero =>
    intro n c hc
    simp only [digitsFuel, List.mem_singleton] at hc
    rw [hc]; exact isDigitChar_digitChar n
  | succ f ih =>
    intro n c hc
    rw [digitsFuel] at hc
    split at hc
    · simp only [List.mem_singleton] at hc
      rw [hc]; exact isDigitChar_digitChar n
    · rcases List.mem_append.mp hc with h | h
      · exact ih _ c h
      · simp only [List.mem_singleton] at h
        rw [h]; exact isDigitChar_digitChar n

theorem fmt1_isNumeral (x : ℚ) : ∀ c ∈ fmt1 x, IsNumeralChar c := by
  intro c hc
  unfold fmt1 at hc
  have hdigit : ∀ d : Char, IsDigitChar d → IsNumeralChar d := fun d h => ⟨h.1, h.2.1, h.2.2.1⟩
  rcases List.mem_append.mp hc with h | h
  · rcases List.mem_append.mp h with h1 | h1
    · split at h1
      · simp only [List.mem_singleton] at h1
        rw [h1]; unfold IsNumeralChar; decide
      · simp at h1
    · exact hdigit c (digitsFuel_isDigit _ _ c h1)
  · simp only [List.mem_cons, List.mem_singleton, List.not_mem_nil, or_false] at h
    rcases h with h | h
    · rw [h]; unfold IsNumeralChar; decide
    · rw [h]; exact hdigit _ (isDigitChar_digitChar _)

theorem takeBytes_all (cs : List Char) :
    ∀ n, (∀ c ∈ cs, c.utf8Size = 1) → cs.length ≤ n → takeBytes n cs = cs := by
  induction cs with
  | nil => intro n _ _; rfl
  | cons c cs ih =>
    intro n hall hlen
    have hc : c.utf8Size = 1 := hall c (List.mem_cons_self c cs)
    have hn : 1 ≤ n := by simp only [List.length_cons] at hlen; omega
    rw [takeBytes, hc, if_pos hn,
      ih (n - 1) (fun d hd => hall d (List.mem_cons_of_mem c hd))
        (by simp only [List.length_cons] at hlen; omega)]

theorem wire_format_ascii (t h : ℚ) : ∀ c ∈ (wire_format t h).data, c.utf8Size = 1 := by
  intro c hc
  simp only [wire_format, List.mem_append, List.mem_singleton] at hc
  rcases hc with ((hc | hc) | hc) | hc
  · exact (fmt1_isNumeral t c hc).1
  · rw [hc]; decide
  · exact (fmt1_isNumeral h c hc).1
  · rw [hc]; decide

theorem snprintf_fits (size : Nat) (t h : ℚ) (hfit : (wire_format t h).length < size) :
    snprintf size (wire_format t h) = wire_format t h := by
  unfold snprintf
  rw [takeBytes_all _ _ (wire_format_ascii t h) (by
    have : (wire_format t h).length = (wire_format t h).data.length := rfl
    omega)]

theorem digitsFuel_length (f : Nat) :
    ∀ n k, n < 10 ^ (k + 1) → (digitsFuel f n).length ≤ k + 1 := by
  induction f with
  | zero => intro n k _; simp [digitsFuel]
  | succ f ih =>
    intro n k hn
    rw [digitsFuel]
    split
    · simp
    · rename_i hge
      cases k with
      | zero => exact absurd (by simpa using hn) hge
      | succ k =>
        have hdiv : n / 10 < 10 ^ (k + 1) := by
          apply Nat.div_lt_of_lt_mul
          rw [pow_succ] at hn
          omega
        have := ih (n / 10) k hdiv
        simp only [List.length_append, List.length_singleton]
        omega

theorem abs_eq_natAbs_div (x : ℚ) : abs x = (x.num.natAbs : ℚ) / (x.den : ℚ) := by
  have hd : (0 : ℚ) < (x.den : ℚ) := by exact_mod_cast x.den_pos
  have h1 : x = (x.num : ℚ) / (x.den : ℚ) := (Rat.num_div_den x).symm
  have h2 : ((x.num.natAbs : Nat) : ℚ) = |(x.num : ℚ)| := by
    rw [Nat.cast_natAbs, Int.cast_abs]
  rw [h2]
  conv_lhs => rw [h1]
  rw [abs_div, abs_of_pos hd]

theorem roundTenths_div_le (x : ℚ) (F : Nat) (hx : abs x ≤ (F : ℚ)) : roundTenths x / 10 ≤ F := by
  have hd : (0 : ℚ) < (x.den : ℚ) := by exact_mod_cast x.den_pos
  have ha : x.num.natAbs ≤ F * x.den := by
    rw [abs_eq_natAbs_div, div_le_iff₀ hd] at hx
    exact_mod_cast hx
  have hq : x.num.natAbs * 10 / x.den ≤ 10 * F := by
    apply Nat.div_le_of_le_mul
    calc x.num.natAbs * 10 ≤ F * x.den * 10 := Nat.mul_le_mul_right 10 ha
      _ = x.den * (10 * F) := by ring
  have hr : roundTenths x ≤ x.num.natAbs * 10 / x.den + 1 := by
    unfold roundTenths
    simp only []
    split
    · omega
    · split
      · omega
      · split <;> omega
  omega

theorem fmt1_length (x : ℚ) (F k : Nat) (hx : abs x ≤ (F : ℚ)) (hF : F < 10 ^ (k + 1)) :
    (fmt1 x).length ≤ k + 4 := by
  have h1 := digitsFuel_length (roundTenths x / 10) (roundTenths x / 10) k
    (Nat.lt_of_le_of_lt (roundTenths_div_le x F hx) hF)
  unfold fmt1 natDigits
  simp only [List.length_append, List.length_cons, List.length_nil]
  split
  · simp only [List.length_cons, List.length_nil]; omega
  · simp only [List.length_nil]; omega

theorem wire_format_length (t h : ℚ) :
    (wire_format t h).length = (fmt1 t).length + (fmt1 h).length + 2 := by
  show (wire_format t h).data.length = _
  simp only [wire_format, List.length_append, List.length_cons, List.length_nil]
  omega

theorem wire_format_one_line (t h : ℚ) :
    (wire_format t h).data.count '\n' = 1 ∧ (wire_format t h).data.getLast? = some '\n' := by
  have ht : List.count '\n' (fmt1 t) = 0 :=
    List.count_eq_zero.mpr (fun hm => (fmt1_isNumeral t _ hm).2.2 rfl)
  have hh : List.count '\n' (fmt1 h) = 0 :=
    List.count_eq_zero.mpr (fun hm => (fmt1_isNumeral h _ hm).2.2 rfl)
  constructor
  · simp only [wire_format, List.count_append, ht, hh]
    decide
  · simp only [wire_format]
    exact List.getLast?_concat _

namespace LvglApp

/-! ## The shared cell (C1, C2) -/

theorem server_publish_cell (t h pt ph : ℚ) (cell : sensor_data_t) :
    (server_publish t h pt ph cell).1 =
      (sensor_data_t.mk t h pt ph true) := rfl

theorem server_publish_events (t h pt ph : ℚ) (cell : sensor_data_t) :
    (server_publish t h pt ph cell).2 =
      [Event.pthread_mutex_lock,
       Event.store (sensor_data_t.mk t h pt ph true),
       Event.pthread_mutex_unlock] := rfl

theorem update_ui_timer_fresh (ui : Widgets) (cell : sensor_data_t)
    (hinit : ui.temp_label ≠ none ∧ ui.hum_label ≠ none) (hfresh : cell.new_data = true) :
    update_ui_timer ui cell =
      ({ cell with new_data := false },
       [Event.pthread_mutex_lock,
        Event.lv_label_set_text ui.temp_label (label_text cell.temperature "°C"),
        Event.lv_label_set_text ui.hum_label (label_text cell.humidity "%"),
        Event.lv_label_set_text ui.pred_temp_label (label_text cell.pred_temperature "°C"),
        Event.lv_label_set_text ui.pred_hum_label (label_text cell.pred_humidity "%"),
        Event.lv_label_set_text ui.status_label "● LIVE",
        Event.lv_obj_set_style_text_color ui.status_label 0x4CAF50,
        Event.store { cell with new_data := false },
        Event.pthread_mutex_unlock]) := by
  unfold update_ui_timer
  rw [if_neg (by rintro (h | h); exacts [hinit.1 h, hinit.2 h]), if_pos hfresh]

/-- C1 (latest write wins): after the publish step with `a` and then the
publish step with `b`, from any prior cell, the cell holds exactly the four
values of `b` with `new_data` set, and one run of `update_ui_timer` with the
labels initialised passes to LVGL the one-decimal texts of the four values of
`b` and clears `new_data`; nothing of `a` is left. -/
theorem latest_write_wins (ui : Widgets) (a b : Sample) (cell : sensor_data_t)
    (hinit : ui.temp_label ≠ none ∧ ui.hum_label ≠ none) :
    (publish b (publish a cell).1).1 =
      (sensor_data_t.mk b.temperature b.humidity b.pred_temperature b.pred_humidity true) ∧
    (update_ui_timer ui (publish b (publish a cell).1).1).2 =
      [Event.pthread_mutex_lock,
       Event.lv_label_set_text ui.temp_label (label_text b.temperature "°C"),
       Event.lv_label_set_text ui.hum_label (label_text b.humidity "%"),
       Event.lv_label_set_text ui.pred_temp_label (label_text b.pred_temperature "°C"),
       Event.lv_label_set_text ui.pred_hum_label (label_text b.pred_humidity "%"),
       Event.lv_label_set_text ui.status_label "● LIVE",
       Event.lv_obj_set_style_text_color ui.status_label 0x4CAF50,
       Event.store (sensor_data_t.mk b.temperature b.humidity b.pred_temperature b.pred_humidity false),
       Event.pthread_mutex_unlock] ∧
    (update_ui_timer ui (publish b (publish a cell).1).1).1 =
      (sensor_data_t.mk b.temperature b.humidity b.pred_temperature b.pred_humidity false) := by
  have hcell : (publish b (publish a cell).1).1 =
      (sensor_data_t.mk b.temperature b.humidity b.pred_temperature b.pred_humidity true) := rfl
  rw [hcell, update_ui_timer_fresh ui _ hinit rfl]
  exact ⟨rfl, rfl, rfl⟩

/-- Evaluation of C1 at `sample_a`, `sample_b` and the initial cell: the texts
set are those of `sample_b`. -/
theorem latest_write_wins_witness :
    (ui_ready.temp_label ≠ none ∧ ui_ready.hum_label ≠ none) ∧
    (update_ui_timer ui_ready (publish sample_b (publish sample_a sensor_data_init).1).1).2 =
      [Event.pthread_mutex_lock,
       Event.lv_label_set_text (some 1) "22.5°C",
       Event.lv_label_set_text (some 2) "55.0%",
       Event.lv_label_set_text (some 3) "23.1°C",
       Event.lv_label_set_text (some 4) "54.2%",
       Event.lv_label_set_text (some 5) "● LIVE",
       Event.lv_obj_set_style_text_color (some 5) 0x4CAF50,
       Event.store (sensor_data_t.mk (45 / 2) 55 (231 / 10) (271 / 5) false),
       Event.pthread_mutex_unlock] :=
  ⟨by decide,
   (latest_write_wins ui_ready sample_a sample_b sensor_data_init (by decide)).2.1.trans
     (by decide!)⟩

theorem session_loop_zero (cfd : Int) (wret : Nat → Int) (i : Nat) (st : ServerState) :
    session_loop cfd wret 0 i st = (st, []) := rfl

theorem session_loop_fail (cfd : Int) (wret : Nat → Int) (n i : Nat) (st : ServerState)
    (h : wret i = -1) :
    session_loop cfd wret (n + 1) i st =
      ({ sensor_data := st.sensor_data, rng := (draw_sample st.rng).2 },
       [Event.write cfd (server_line (draw_sample st.rng).1.temperature
          (draw_sample st.rng).1.humidity) (-1), Event.log "write"]) := by
  rw [session_loop]
  simp only [h, if_true]

theorem session_loop_ok (cfd : Int) (wret : Nat → Int) (n i : Nat) (st : ServerState)
    (h : wret i ≠ -1) :
    session_loop cfd wret (n + 1) i st =
      ((session_loop cfd wret n (i + 1)
          { sensor_data := fresh_cell (draw_sample st.rng).1, rng := (draw_sample st.rng).2 }).1,
       Event.write cfd (server_line (draw_sample st.rng).1.temperature
          (draw_sample st.rng).1.humidity) (wret i) ::
       Event.pthread_mutex_lock ::
       Event.store (fresh_cell (draw_sample st.rng).1) ::
       Event.pthread_mutex_unlock ::
       Event.log "Sent" ::
       Event.sleep 1 ::
       (session_loop cfd wret n (i + 1)
          { sensor_data := fresh_cell (draw_sample st.rng).1,
            rng := (draw_sample st.rng).2 }).2) := by
  rw [session_loop]
  simp only [h, if_false]
  rfl

theorem publishBounded_nil (k : Nat) : PublishBounded k [] := by
  intro p t h
  have hp : p = [] := (List.append_eq_nil.mp h.symm).1
  subst hp
  simp

theorem publishBounded_cons_other (k : Nat) (e : Event) (tr : List Event)
    (he : isPublish e = false) (h : PublishBounded k tr) : PublishBounded k (e :: tr) := by
  intro p t hp
  cases p with
  | nil => simp
  | cons a p1 =>
    simp only [List.cons_append, List.cons.injEq] at hp
    have h1 := h p1 t hp.2
    rw [← hp.1, List.countP_cons, List.countP_cons, he]
    simp only [Bool.false_eq_true, if_false, Nat.add_zero]
    omega

theorem publishBounded_cons_store (k : Nat) (c : sensor_data_t) (tr : List Event)
    (h : PublishBounded k tr) : PublishBounded (k + 1) (Event.store c :: tr) := by
  intro p t hp
  cases p with
  | nil => simp
  | cons a p1 =>
    simp only [List.cons_append, List.cons.injEq] at hp
    have h1 := h p1 t hp.2
    rw [← hp.1, List.countP_cons, List.countP_cons]
    simp only [isPublish, isWriteOk, if_true, Bool.false_eq_true, if_false, Nat.add_zero]
    omega

theorem publishBounded_cons_write (k : Nat) (cfd : Int) (data : String) (ret : Int)
    (tr : List Event) (hret : ret ≠ -1) (h : PublishBounded (k + 1) tr) :
    PublishBounded k (Event.write cfd data ret :: tr) := by
  intro p t hp
  cases p with
  | nil => simp
  | cons a p1 =>
    simp only [List.cons_append, List.cons.injEq] at hp
    have h1 := h p1 t hp.2
    rw [← hp.1, List.countP_cons, List.countP_cons]
    simp only [isPublish, isWriteOk, hret, ne_eq, not_false_eq_true, decide_True, if_true,
      Bool.false_eq_true, if_false, Nat.add_zero]
    omega

theorem session_loop_publishBounded (cfd : Int) (wret : Nat → Int) (n : Nat) :
    ∀ (i : Nat) (st : ServerState), PublishBounded 0 (session_loop cfd wret n i st).2 := by
  induction n with
  | zero => intro i st; exact publishBounded_nil 0
  | succ n ih =>
    intro i st
    by_cases h : wret i = -1
    · rw [session_loop_fail cfd wret n i st h]
      exact publishBounded_cons_other 0 _ _ rfl
        (publishBounded_cons_other 0 _ _ rfl (publishBounded_nil 0))
    · rw [session_loop_ok cfd wret n i st h]
      apply publishBounded_cons_write 0 _ _ _ _ h
      apply publishBounded_cons_other 1 _ _ (by rfl)
      apply publishBounded_cons_store 0
      apply publishBounded_cons_other 0 _ _ (by rfl)
      apply publishBounded_cons_other 0 _ _ (by rfl)
      apply publishBounded_cons_other 0 _ _ (by rfl)
      exact ih _ _

theorem storeFollowsWrite_nil (cfd : Int) : StoreFollowsWrite cfd [] := by
  intro pre c post h
  exact absurd h.symm (by simp)

theorem storeFollowsWrite_cons (cfd : Int) (e : Event) (tr : List Event)
    (he : isPublish e = false) (h : StoreFollowsWrite cfd tr) :
    StoreFollowsWrite cfd (e :: tr) := by
  intro pre c post hp
  rcases cons_eq_append_cons e _ tr pre post hp with ⟨_, h2, _⟩ | ⟨pre1, h1, h2⟩
  · rw [h2] at he; simp [isPublish] at he
  · obtain ⟨pre2, ret, hret, hpre⟩ := h pre1 c post h2
    exact ⟨e :: pre2, ret, hret, by rw [h1, hpre]; rfl⟩

theorem storeFollowsWrite_iter (cfd : Int) (a : Sample) (ret : Int) (tr : List Event)
    (hret : ret ≠ -1) (h : StoreFollowsWrite cfd tr) :
    StoreFollowsWrite cfd
      (Event.write cfd (server_line a.temperature a.humidity) ret ::
        Event.pthread_mutex_lock :: Event.store (fresh_cell a) :: tr) := by
  intro pre c post hp
  rcases cons_eq_append_cons _ _ _ pre post hp with ⟨_, h2, _⟩ | ⟨pre1, h1, h2⟩
  · exact absurd h2 (by simp)
  rcases cons_eq_append_cons _ _ _ pre1 post h2 with ⟨_, h4, _⟩ | ⟨pre2, h3, h4⟩
  · exact absurd h4 (by simp)
  rcases cons_eq_append_cons _ _ _ pre2 post h4 with ⟨h5, h6, _⟩ | ⟨pre3, h5, h6⟩
  · refine ⟨[], ret, hret, ?_⟩
    have hc : c = fresh_cell a := by
      simp only [Event.store.injEq] at h6
      exact h6.symm
    rw [h1, h3, h5, hc]
    rfl
  · obtain ⟨pre4, ret1, hret1, hpre⟩ := h pre3 c post h6
    refine ⟨Event.write cfd (server_line a.temperature a.humidity) ret ::
      Event.pthread_mutex_lock :: Event.store (fresh_cell a) :: pre4, ret1, hret1, ?_⟩
    rw [h1, h3, h5, hpre]
    rfl

theorem session_loop_storeFollowsWrite (cfd : Int) (wret : Nat → Int) (n : Nat) :
    ∀ (i : Nat) (st : ServerState), StoreFollowsWrite cfd (session_loop cfd wret n i st).2 := by
  induction n with
  | zero => intro i st; exact storeFollowsWrite_nil cfd
  | succ n ih =>
    intro i st
    by_cases h : wret i = -1
    · rw [session_loop_fail cfd wret n i st h]
      exact storeFollowsWrite_cons cfd _ _ rfl
        (storeFollowsWrite_cons cfd _ _ rfl (storeFollowsWrite_nil cfd))
    · rw [session_loop_ok cfd wret n i st h]
      apply storeFollowsWrite_iter cfd _ _ _ h
      apply storeFollowsWrite_cons cfd _ _ (by rfl)
      apply storeFollowsWrite_cons cfd _ _ (by rfl)
      apply storeFollowsWrite_cons cfd _ _ (by rfl)
      exact ih _ _

theorem failedWriteEnds_cons (e : Event) (tr : List Event)
    (he : ∀ cfd data, e ≠ Event.write cfd data (-1)) (h : FailedWriteEnds tr) :
    FailedWriteEnds (e :: tr) := by
  intro pre cfd data post hp
  rcases cons_eq_append_cons e _ tr pre post hp with ⟨_, h2, _⟩ | ⟨pre1, _, h2⟩
  · exact absurd h2 (he cfd data)
  · exact h pre1 cfd data post h2

theorem failedWriteEnds_nil : FailedWriteEnds [] := by
  intro pre cfd data post h
  exact absurd h.symm (by simp)

theorem session_loop_failedWriteEnds (cfd : Int) (wret : Nat → Int) (n : Nat) :
    ∀ (i : Nat) (st : ServerState), FailedWriteEnds (session_loop cfd wret n i st).2 := by
  induction n with
  | zero => intro i st; exact failedWriteEnds_nil
  | succ n ih =>
    intro i st
    by_cases h : wret i = -1
    · rw [session_loop_fail cfd wret n i st h]
      intro pre cfd1 data post hp
      rcases cons_eq_append_cons _ _ _ pre post hp with ⟨_, _, h3⟩ | ⟨pre1, _, h2⟩
      · exact h3.symm
      · rcases cons_eq_append_cons _ _ _ pre1 post h2 with ⟨_, h4, _⟩ | ⟨pre2, _, h4⟩
        · exact absurd h4 (by simp)
        · exact absurd h4.symm (by simp)
    · rw [session_loop_ok cfd wret n i st h]
      apply failedWriteEnds_cons _ _ (by intro c d hc; simp only [Event.write.injEq] at hc; exact h hc.2.2)
      apply failedWriteEnds_cons _ _ (by intro c d; simp)
      apply failedWriteEnds_cons _ _ (by intro c d; simp)
      apply failedWriteEnds_cons _ _ (by intro c d; simp)
      apply failedWriteEnds_cons _ _ (by intro c d; simp)
      apply failedWriteEnds_cons _ _ (by intro c d; simp)
      exact ih _ _

/-- C3 (publish after send): in a server session, for every write outcome and
every initial segment of the trace, the stores into the shared cell number at
most the successful writes; every store comes directly after the lock that
follows a successful write of the line of the very reading stored; and after a
failed write nothing but the error report follows, so its reading is never
stored. -/
theorem publish_after_send (cfd : Int) (wret : Nat → Int) (st : ServerState) :
    (∀ p t, (server_session cfd wret st).2 = p ++ t →
      p.countP isPublish ≤ p.countP isWriteOk) ∧
    (∀ pre c post, (server_session cfd wret st).2 = pre ++ Event.store c :: post →
      ∃ pre1 ret, ret ≠ -1 ∧
        pre = pre1 ++ [Event.write cfd (server_line c.temperature c.humidity) ret,
          Event.pthread_mutex_lock]) ∧
    (∀ pre cfd1 data post,
      (server_session cfd wret st).2 = pre ++ Event.write cfd1 data (-1) :: post →
      post = [Event.log "write"]) :=
  ⟨fun p t h => session_loop_publishBounded cfd wret 60 0 st p t h,
   session_loop_storeFollowsWrite cfd wret 60 0 st,
   session_loop_failedWriteEnds cfd wret 60 0 st⟩

theorem session_loop_split (cfd : Int) (wret : Nat → Int) (m n : Nat) :
    ∀ (i : Nat) (st : ServerState), (∀ j, i ≤ j → j < i + m → wret j ≠ -1) →
      session_loop cfd wret (m + n) i st =
        ((session_loop cfd wret n (i + m) (session_loop cfd wret m i st).1).1,
         (session_loop cfd wret m i st).2 ++
           (session_loop cfd wret n (i + m) (session_loop cfd wret m i st).1).2) := by
  induction m with
  | zero => intro i st _; simp [session_loop_zero]
  | succ m ih =>
    intro i st hok
    have h0 : wret i ≠ -1 := hok i (Nat.le_refl i) (by omega)
    have hrest : ∀ j, i + 1 ≤ j → j < i + 1 + m → wret j ≠ -1 :=
      fun j h1 h2 => hok j (by omega) (by omega)
    have e : m + 1 + n = (m + n) + 1 := by omega
    rw [e, session_loop_ok cfd wret (m + n) i st h0, session_loop_ok cfd wret m i st h0,
      ih (i + 1) _ hrest]
    have e2 : i + 1 + m = i + (m + 1) := by omega
    simp only [e2, List.cons_append]

theorem session_loop_counts (cfd : Int) (wret : Nat → Int) (n : Nat) :
    ∀ (i : Nat) (st : ServerState), (∀ j, i ≤ j → j < i + n → wret j ≠ -1) →
      (session_loop cfd wret n i st).2.countP isWrite = n ∧
      (session_loop cfd wret n i st).2.countP isWriteOk = n ∧
      (session_loop cfd wret n i st).2.countP isPublish = n := by
  induction n with
  | zero => intro i st _; simp [session_loop_zero]
  | succ n ih =>
    intro i st hok
    have h0 : wret i ≠ -1 := hok i (Nat.le_refl i) (by omega)
    obtain ⟨h1, h2, h3⟩ := ih (i + 1)
      (ServerState.mk (fresh_cell (draw_sample st.rng).1) (draw_sample st.rng).2)
      (fun j h1 h2 => hok j (by omega) (by omega))
    rw [session_loop_ok cfd wret n i st h0]
    simp only [List.countP_cons, h1, h2, h3, isWrite, isWriteOk, isPublish, h0, ne_eq,
      not_false_eq_true, decide_True, if_true, Bool.false_eq_true, if_false, Nat.add_zero,
      and_self]

theorem session_loop_no_close (cfd : Int) (wret : Nat → Int) (n : Nat) :
    ∀ (i : Nat) (st : ServerState), (session_loop cfd wret n i st).2.countP isClose = 0 := by
  induction n with
  | zero => intro i st; simp [session_loop_zero]
  | succ n ih =>
    intro i st
    by_cases h : wret i = -1
    · rw [session_loop_fail cfd wret n i st h]
      simp [List.countP_cons, isClose]
    · rw [session_loop_ok cfd wret n i st h]
      simp [List.countP_cons, isClose, ih]

theorem accept_loop_connection (acc : Nat → Int) (wret : Nat → Nat → Int) (fuel k : Nat)
    (st : ServerState) (hacc : acc k ≠ -1) :
    (accept_loop acc wret (fuel + 1) k st).2 =
      Event.accept (acc k) :: Event.log "Connection from" ::
        (server_session (acc k) (wret k) st).2 ++
        [Event.close (acc k), Event.log "Client disconnected"] ++
        (accept_loop acc wret fuel (k + 1) (server_session (acc k) (wret k) st).1).2 := by
  rw [accept_loop]
  simp only [hacc, if_false]

theorem accept_loop_head (acc : Nat → Int) (wret : Nat → Nat → Int) (fuel k : Nat)
    (st : ServerState) :
    ∃ rest, (accept_loop acc wret (fuel + 1) k st).2 = Event.accept (acc k) :: rest := by
  rw [accept_loop]
  by_cases h : acc k = -1
  · simp only [h, if_true]
    exact ⟨_, rfl⟩
  · simp only [h, if_false]
    exact ⟨_, rfl⟩

theorem draw_sample_range (rng : RandState) :
    abs (draw_sample rng).1.temperature ≤ ((35 : Nat) : ℚ) ∧
    abs (draw_sample rng).1.humidity ≤ ((80 : Nat) : ℚ) := by
  have h1 : (((rand rng).1 % 200 : Nat) : ℚ) < 200 := by
    exact_mod_cast Nat.mod_lt _ (by decide)
  have h2 : (((rand (random_temperature rng).2).1 % 500 : Nat) : ℚ) < 500 := by
    exact_mod_cast Nat.mod_lt _ (by decide)
  have h3 : (0 : ℚ) ≤ (((rand rng).1 % 200 : Nat) : ℚ) := Nat.cast_nonneg _
  have h4 : (0 : ℚ) ≤ (((rand (random_temperature rng).2).1 % 500 : Nat) : ℚ) :=
    Nat.cast_nonneg _
  constructor
  · show abs (15 + (((rand rng).1 % 200 : Nat) : ℚ) / 10) ≤ ((35 : Nat) : ℚ)
    rw [abs_of_nonneg (by linarith)]
    push_cast
    linarith
  · show abs (30 + (((rand (random_temperature rng).2).1 % 500 : Nat) : ℚ) / 10) ≤
      ((80 : Nat) : ℚ)
    rw [abs_of_nonneg (by linarith)]
    push_cast
    linarith

theorem server_line_whole (rng : RandState) :
    server_line (draw_sample rng).1.temperature (draw_sample rng).1.humidity =
      wire_format (draw_sample rng).1.temperature (draw_sample rng).1.humidity := by
  have h1 := fmt1_length _ 35 1 (draw_sample_range rng).1 (by decide)
  have h2 := fmt1_length _ 80 1 (draw_sample_range rng).2 (by decide)
  apply snprintf_fits
  rw [wire_format_length]
  show _ < 256
  omega

theorem writesLines_nil (cfd : Int) : WritesLines cfd [] := by
  intro pre cfd1 data ret post h
  exact absurd h.symm (by simp)

theorem writesLines_cons (cfd : Int) (e : Event) (tr : List Event)
    (he : isWrite e = false) (h : WritesLines cfd tr) : WritesLines cfd (e :: tr) := by
  intro pre cfd1 data ret post hp
  rcases cons_eq_append_cons e _ tr pre post hp with ⟨_, h2, _⟩ | ⟨pre1, _, h2⟩
  · rw [h2] at he; simp [isWrite] at he
  · exact h pre1 cfd1 data ret post h2

theorem writesLines_cons_write (cfd : Int) (t h : ℚ) (ret : Int) (tr : List Event)
    (htr : WritesLines cfd tr) :
    WritesLines cfd (Event.write cfd (wire_format t h) ret :: tr) := by
  intro pre cfd1 data ret1 post hp
  rcases cons_eq_append_cons _ _ tr pre post hp with ⟨_, h2, _⟩ | ⟨pre1, _, h2⟩
  · simp only [Event.write.injEq] at h2
    refine ⟨h2.1.symm, ⟨t, h, h2.2.1.symm⟩, ?_⟩
    rw [← h2.2.1]
    exact wire_format_one_line t h
  · exact htr pre1 cfd1 data ret1 post h2

theorem session_loop_writesLines (cfd : Int) (wret : Nat → Int) (n : Nat) :
    ∀ (i : Nat) (st : ServerState), WritesLines cfd (session_loop cfd wret n i st).2 := by
  induction n with
  | zero => intro i st; exact writesLines_nil cfd
  | succ n ih =>
    intro i st
    by_cases h : wret i = -1
    · rw [session_loop_fail cfd wret n i st h, server_line_whole]
      apply writesLines_cons_write
      exact writesLines_cons cfd _ _ (by rfl) (writesLines_nil cfd)
    · rw [session_loop_ok cfd wret n i st h, server_line_whole]
      apply writesLines_cons_write
      apply writesLines_cons cfd _ _ (by rfl)
      apply writesLines_cons cfd _ _ (by rfl)
      apply writesLines_cons cfd _ _ (by rfl)
      apply writesLines_cons cfd _ _ (by rfl)
      apply writesLines_cons cfd _ _ (by rfl)
      exact ih _ _

/-- C4 (session cap): on an accepted connection on which no write fails, the
session makes exactly 60 writes, all successful, and exactly 60 stores into the
shared cell; every write is on the accepted socket and carries one whole line
`"%.1f,%.1f\n"`, its only newline at the end, so exactly 60 lines are written;
the trace ends with the 60th iteration, whose store leaves in the cell the
60th sample with `new_data` set (as the server thread leaves it; the UI timer
may clear the flag afterwards); the session itself never closes the socket,
the accept loop closes it once right after the session, and the next thing the
loop does is call `accept` again. -/
theorem session_cap (acc : Nat → Int) (wret : Nat → Nat → Int) (fuel k : Nat)
    (st : ServerState) (hacc : acc k ≠ -1) (hok : ∀ i, i < 60 → wret k i ≠ -1) :
    (server_session (acc k) (wret k) st).2.countP isWrite = 60 ∧
    (server_session (acc k) (wret k) st).2.countP isWriteOk = 60 ∧
    (server_session (acc k) (wret k) st).2.countP isPublish = 60 ∧
    (∀ pre cfd1 data ret post,
      (server_session (acc k) (wret k) st).2 = pre ++ Event.write cfd1 data ret :: post →
      cfd1 = acc k ∧ (∃ t h : ℚ, data = wire_format t h) ∧
      data.data.count '\n' = 1 ∧ data.data.getLast? = some '\n') ∧
    (server_session (acc k) (wret k) st).1.sensor_data =
      fresh_cell (draw_sample (session_loop (acc k) (wret k) 59 0 st).1.rng).1 ∧
    (server_session (acc k) (wret k) st).1.sensor_data.new_data = true ∧
    (server_session (acc k) (wret k) st).2 =
      (session_loop (acc k) (wret k) 59 0 st).2 ++
        [Event.write (acc k)
           (server_line (draw_sample (session_loop (acc k) (wret k) 59 0 st).1.rng).1.temperature
             (draw_sample (session_loop (acc k) (wret k) 59 0 st).1.rng).1.humidity)
           (wret k 59),
         Event.pthread_mutex_lock,
         Event.store (server_session (acc k) (wret k) st).1.sensor_data,
         Event.pthread_mutex_unlock, Event.log "Sent", Event.sleep 1] ∧
    (server_session (acc k) (wret k) st).2.countP isClose = 0 ∧
    (accept_loop acc wret (fuel + 1) k st).2 =
      Event.accept (acc k) :: Event.log "Connection from" ::
        (server_session (acc k) (wret k) st).2 ++
        [Event.close (acc k), Event.log "Client disconnected"] ++
        (accept_loop acc wret fuel (k + 1) (server_session (acc k) (wret k) st).1).2 ∧
    (∀ f s, ∃ rest,
      (accept_loop acc wret (f + 1) (k + 1) s).2 = Event.accept (acc (k + 1)) :: rest) := by
  have hall : ∀ j, 0 ≤ j → j < 0 + 60 → wret k j ≠ -1 := fun j _ h => hok j (by omega)
  have hcnt := session_loop_counts (acc k) (wret k) 60 0 st hall
  have hsplit := session_loop_split (acc k) (wret k) 59 1 0 st
    (fun j _ h => hok j (by omega))
  have hlast := session_loop_ok (acc k) (wret k) 0 (0 + 59)
    (session_loop (acc k) (wret k) 59 0 st).1 (hok 59 (by omega))
  have hses : server_session (acc k) (wret k) st = session_loop (acc k) (wret k) (59 + 1) 0 st :=
    rfl
  have hstate : (server_session (acc k) (wret k) st).1.sensor_data =
      fresh_cell (draw_sample (session_loop (acc k) (wret k) 59 0 st).1.rng).1 := by
    rw [hses, hsplit, hlast]
    rfl
  refine ⟨hcnt.1, hcnt.2.1, hcnt.2.2, session_loop_writesLines (acc k) (wret k) 60 0 st,
    hstate, ?_, ?_, session_loop_no_close (acc k) (wret k) 60 0 st,
    accept_loop_connection acc wret fuel k st hacc,
    fun f s => accept_loop_head acc wret f (k + 1) s⟩
  · rw [hstate]; rfl
  · rw [hstate, hses, hsplit, hlast]
    rfl

/-- Evaluation of C4 for descriptor 4, writes that all return 10 and the
generator whose `n`-th value is `n`: 60 stores, and the first two writes carry
the lines of the first two readings. -/
theorem session_cap_witness :
    ((fun _ => (4 : Int)) 0 ≠ -1 ∧ ∀ i, i < 60 → (fun _ _ => (10 : Int)) 0 i ≠ -1) ∧
    (server_session 4 (fun _ => 10) (server_start id)).2.countP isPublish = 60 ∧
    (server_session 4 (fun _ => 10) (server_start id)).1.sensor_data.new_data = true ∧
    ((server_session 4 (fun _ => 10) (server_start id)).2.filter isWrite).take 2 =
      [Event.write 4 "15.0,30.1\n" 10, Event.write 4 "15.6,30.7\n" 10] :=
  ⟨⟨by decide, fun _ _ => by simp⟩,
   (session_cap (fun _ => 4) (fun _ _ => 10) 0 0 (server_start id) (by decide)
      (fun _ _ => by simp)).2.2.1,
   (session_cap (fun _ => 4) (fun _ _ => 10) 0 0 (server_start id) (by decide)
      (fun _ _ => by simp)).2.2.2.2.2.1,
   by decide!⟩

/-- C5 (write failure ends the session, not the server): when the `k`-th write
of a session, `1 ≤ k ≤ 60`, is the first to fail, the trace of the session is
that of the first `k - 1` iterations followed by the failed write and its error
report; it holds exactly `k` writes and `k - 1` stores; the cell is left as the
first `k - 1` iterations left it; the session never closes the socket, the
accept loop closes it once right after the session, and the next thing the loop
does is call `accept` again. -/
theorem write_failure_ends_session (acc : Nat → Int) (wret : Nat → Nat → Int)
    (fuel c : Nat) (st : ServerState) (k : Nat) (hacc : acc c ≠ -1)
    (hk1 : 1 ≤ k) (hk60 : k ≤ 60) (hok : ∀ i, i + 1 < k → wret c i ≠ -1)
    (hfail : wret c (k - 1) = -1) :
    (server_session (acc c) (wret c) st).2 =
      (session_loop (acc c) (wret c) (k - 1) 0 st).2 ++
        [Event.write (acc c)
           (server_line
             (draw_sample (session_loop (acc c) (wret c) (k - 1) 0 st).1.rng).1.temperature
             (draw_sample (session_loop (acc c) (wret c) (k - 1) 0 st).1.rng).1.humidity)
           (-1),
         Event.log "write"] ∧
    (server_session (acc c) (wret c) st).2.countP isWrite = k ∧
    (server_session (acc c) (wret c) st).2.countP isPublish = k - 1 ∧
    (session_loop (acc c) (wret c) (k - 1) 0 st).2.countP isPublish = k - 1 ∧
    (server_session (acc c) (wret c) st).1.sensor_data =
      (session_loop (acc c) (wret c) (k - 1) 0 st).1.sensor_data ∧
    (server_session (acc c) (wret c) st).2.countP isClose = 0 ∧
    (accept_loop acc wret (fuel + 1) c st).2 =
      Event.accept (acc c) :: Event.log "Connection from" ::
        (server_session (acc c) (wret c) st).2 ++
        [Event.close (acc c), Event.log "Client disconnected"] ++
        (accept_loop acc wret fuel (c + 1) (server_session (acc c) (wret c) st).1).2 ∧
    (∀ f s, ∃ rest,
      (accept_loop acc wret (f + 1) (c + 1) s).2 = Event.accept (acc (c + 1)) :: rest) := by
  obtain ⟨m, rfl⟩ : ∃ m, k = m + 1 := ⟨k - 1, by omega⟩
  simp only [Nat.add_sub_cancel] at hfail ⊢
  have hall : ∀ j, 0 ≤ j → j < 0 + m → wret c j ≠ -1 := fun j _ h => hok j (by omega)
  have hcnt := session_loop_counts (acc c) (wret c) m 0 st hall
  obtain ⟨r, hr⟩ : ∃ r, 60 = m + (r + 1) := ⟨59 - m, by omega⟩
  have hses : server_session (acc c) (wret c) st =
      session_loop (acc c) (wret c) (m + (r + 1)) 0 st := by
    rw [← hr]; rfl
  have hsplit := session_loop_split (acc c) (wret c) m (r + 1) 0 st hall
  have hlast := session_loop_fail (acc c) (wret c) r (0 + m)
    (session_loop (acc c) (wret c) m 0 st).1 (by rw [Nat.zero_add]; exact hfail)
  have htrace : (server_session (acc c) (wret c) st).2 =
      (session_loop (acc c) (wret c) m 0 st).2 ++
        [Event.write (acc c)
           (server_line
             (draw_sample (session_loop (acc c) (wret c) m 0 st).1.rng).1.temperature
             (draw_sample (session_loop (acc c) (wret c) m 0 st).1.rng).1.humidity)
           (-1),
         Event.log "write"] := by
    rw [hses, hsplit, hlast]
  refine ⟨htrace, ?_, ?_, hcnt.2.2, ?_,
    session_loop_no_close (acc c) (wret c) 60 0 st,
    accept_loop_connection acc wret fuel c st hacc,
    fun f s => accept_loop_head acc wret f (c + 1) s⟩
  · rw [htrace, List.countP_append, hcnt.1]
    simp [List.countP_cons, isWrite]
  · rw [htrace, List.countP_append, hcnt.2.2]
    simp [List.countP_cons, isPublish]
  · rw [hses, hsplit, hlast]

/-- Evaluation of C5 with `k = 3`: the third write fails, the session makes
three writes and two stores. -/
theorem write_failure_ends_session_witness :
    ((fun _ => (4 : Int)) 0 ≠ -1 ∧ 1 ≤ 3 ∧ 3 ≤ 60 ∧
      (∀ i, i + 1 < 3 → (fun _ => third_write_fails) 0 i ≠ -1) ∧
      (fun _ => third_write_fails) 0 (3 - 1) = -1) ∧
    (server_session 4 third_write_fails (server_start id)).2.countP isWrite = 3 ∧
    (server_session 4 third_write_fails (server_start id)).2.countP isPublish = 3 - 1 :=
  ⟨⟨by decide, by decide, by decide,
     fun i hi => by
       have h : i = 0 ∨ i = 1 := by omega
       rcases h with h | h <;> subst h <;> decide,
     by decide⟩,
   (write_failure_ends_session (fun _ => 4) (fun _ => third_write_fails) 0 0
      (server_start id) 3 (by decide) (by decide) (by decide)
      (fun i hi => by
        have h : i = 0 ∨ i = 1 := by omega
        rcases h with h | h <;> subst h <;> decide)
      (by decide)).2.1,
   (write_failure_ends_session (fun _ => 4) (fun _ => third_write_fails) 0 0
      (server_start id) 3 (by decide) (by decide) (by decide)
      (fun i hi => by
        have h : i = 0 ∨ i = 1 := by omega
        rcases h with h | h <;> subst h <;> decide)
      (by decide)).2.2.1⟩

/-! ## The predictor (C9) -/

/-- C9, as stated, fails: from the current value 20 the forecast is 19 when
the generator returns zeros and 21 when it returns fifteens, and the call
leaves the generator two draws further; likewise `predict_humidity` gives
37/2 and 41/2. -/
theorem predictor_not_pure :
    (predict_temperature 20 (rng_const 0 0)).1 = 19 ∧
    (predict_temperature 20 (rng_const 15 0)).1 = 21 ∧
    (predict_temperature 20 (rng_const 0 0)).1 ≠ (predict_temperature 20 (rng_const 15 0)).1 ∧
    (predict_temperature 20 (rng_const 0 0)).2.pos = 2 ∧
    (predict_temperature 20 (rng_const 0 0)).2.pos ≠ (rng_const 0 0).pos ∧
    (predict_humidity 20 (rng_const 0 0)).1 = 37 / 2 ∧
    (predict_humidity 20 (rng_const 15 0)).1 = 41 / 2 ∧
    (predict_humidity 20 (rng_const 0 0)).2.pos = 2 := by
  decide!

/-- C9, amended: the forecasts are determined by the current value and the
next two values of `rand()`: in two generator states whose next two values
agree, `predict_temperature` returns the same forecast, and so does
`predict_humidity`; each call advances the generator by exactly two draws. -/
theorem predictor_determined_by_rand (c : ℚ) (s s' : RandState)
    (h0 : (rand s).1 = (rand s').1)
    (h1 : (rand (rand s).2).1 = (rand (rand s').2).1) :
    (predict_temperature c s).1 = (predict_temperature c s').1 ∧
    (predict_humidity c s).1 = (predict_humidity c s').1 ∧
    (predict_temperature c s).2 = (rand (rand s).2).2 ∧
    (predict_humidity c s).2 = (rand (rand s).2).2 ∧
    (predict_temperature c s).2 = { draws := s.draws, pos := s.pos + 2 } ∧
    (predict_humidity c s).2 = { draws := s.draws, pos := s.pos + 2 } := by
  refine ⟨?_, ?_, rfl, rfl, rfl, rfl⟩
  · simp only [predict_temperature, h0, h1]
  · simp only [predict_humidity, h0, h1]

/-- Evaluation of the amended C9 on two different generator states with the
same next values. -/
theorem predictor_determined_by_rand_witness :
    ((rand (rng_const 7 0)).1 = (rand (rng_const 7 5)).1 ∧
      (rand (rand (rng_const 7 0)).2).1 = (rand (rand (rng_const 7 5)).2).1) ∧
    (predict_temperature 20 (rng_const 7 0)).1 = (predict_temperature 20 (rng_const 7 5)).1 :=
  ⟨⟨by decide, by decide⟩,
   (predictor_determined_by_rand 20 (rng_const 7 0) (rng_const 7 5) (by decide) (by decide)).1⟩

/-! ## The mutex (C10) -/

theorem heldEvents_session_loop (cfd : Int) (wret : Nat → Int) (n : Nat) :
    ∀ (i : Nat) (st : ServerState),
      (heldEvents false (session_loop cfd wret n i st).2).all isPublish = true ∧
      lockBalanced false (session_loop cfd wret n i st).2 = true := by
  induction n with
  | zero => intro i st; simp [session_loop_zero, heldEvents, lockBalanced]
  | succ n ih =>
    intro i st
    by_cases h : wret i = -1
    · rw [session_loop_fail cfd wret n i st h]
      simp [heldEvents, lockBalanced]
    · rw [session_loop_ok cfd wret n i st h]
      have h1 := ih (i + 1)
        (ServerState.mk (fresh_cell (draw_sample st.rng).1) (draw_sample st.rng).2)
      simp only [heldEvents, lockBalanced, if_true, Bool.false_eq_true, if_false,
        List.all_cons, isPublish, Bool.true_and, Bool.not_false, Bool.not_true, h1.1, h1.2,
        and_self]

/-- C10, as stated, fails: in a run of `update_ui_timer` on a fresh cell the
calls made while the mutex is held are five calls of `lv_label_set_text`, one
of `lv_obj_set_style_text_color` and the clearing of `new_data`. -/
theorem mutex_held_across_render_calls :
    heldEvents false (update_ui_timer ui_ready (publish sample_b sensor_data_init).1).2 =
      [Event.lv_label_set_text (some 1) "22.5°C",
       Event.lv_label_set_text (some 2) "55.0%",
       Event.lv_label_set_text (some 3) "23.1°C",
       Event.lv_label_set_text (some 4) "54.2%",
       Event.lv_label_set_text (some 5) "● LIVE",
       Event.lv_obj_set_style_text_color (some 5) 0x4CAF50,
       Event.store (sensor_data_t.mk (45 / 2) 55 (231 / 10) (271 / 5) false)] ∧
    (heldEvents false
      (update_ui_timer ui_ready (publish sample_b sensor_data_init).1).2).any isRenderCall =
      true := by
  decide!

/-- C10, amended: the publish step of the server holds the mutex for the
stores into the cell only, and so does a whole session; `update_ui_timer`
holds it over the test of `new_data` and, on a fresh cell, over its five
`lv_label_set_text` calls, the `lv_obj_set_style_text_color` call and the
clearing of `new_data`; no call of `accept`, `write`, `sleep` or `close` is made while the
mutex is held, and in each of these traces lock and unlock alternate and the
mutex is free at the end. -/
theorem mutex_discipline (ui : Widgets) (cell : sensor_data_t) (t h pt ph : ℚ)
    (cfd : Int) (wret : Nat → Int) (st : ServerState) :
    heldEvents false (server_publish t h pt ph cell).2 =
      [Event.store (sensor_data_t.mk t h pt ph true)] ∧
    lockBalanced false (server_publish t h pt ph cell).2 = true ∧
    (heldEvents false (server_session cfd wret st).2).all isPublish = true ∧
    lockBalanced false (server_session cfd wret st).2 = true ∧
    (heldEvents false (update_ui_timer ui cell).2).all (fun e => !isNetworkCall e) = true ∧
    lockBalanced false (update_ui_timer ui cell).2 = true ∧
    (ui.temp_label ≠ none ∧ ui.hum_label ≠ none → cell.new_data = true →
      heldEvents false (update_ui_timer ui cell).2 =
        [Event.lv_label_set_text ui.temp_label (label_text cell.temperature "°C"),
         Event.lv_label_set_text ui.hum_label (label_text cell.humidity "%"),
         Event.lv_label_set_text ui.pred_temp_label (label_text cell.pred_temperature "°C"),
         Event.lv_label_set_text ui.pred_hum_label (label_text cell.pred_humidity "%"),
         Event.lv_label_set_text ui.status_label "● LIVE",
         Event.lv_obj_set_style_text_color ui.status_label 0x4CAF50,
         Event.store (sensor_data_t.mk cell.temperature cell.humidity cell.pred_temperature
           cell.pred_humidity false)]) := by
  refine ⟨rfl, rfl, (heldEvents_session_loop cfd wret 60 0 st).1,
    (heldEvents_session_loop cfd wret 60 0 st).2, ?_, ?_, ?_⟩
  · unfold update_ui_timer
    split
    · rfl
    · split <;> rfl
  · unfold update_ui_timer
    split
    · rfl
    · split <;> rfl
  · intro hinit hfresh
    rw [update_ui_timer_fresh ui cell hinit hfresh]
    rfl

/-- Evaluation of the amended C10 on a fresh cell holding `sample_b`: the
calls made under the mutex are the six LVGL calls and the store. -/
theorem mutex_discipline_witness :
    ((ui_ready.temp_label ≠ none ∧ ui_ready.hum_label ≠ none) ∧
      (fresh_cell sample_b).new_data = true) ∧
    heldEvents false (update_ui_timer ui_ready (fresh_cell sample_b)).2 =
      [Event.lv_label_set_text (some 1) "22.5°C",
       Event.lv_label_set_text (some 2) "55.0%",
       Event.lv_label_set_text (some 3) "23.1°C",
       Event.lv_label_set_text (some 4) "54.2%",
       Event.lv_label_set_text (some 5) "● LIVE",
       Event.lv_obj_set_style_text_color (some 5) 0x4CAF50,
       Event.store (sensor_data_t.mk (45 / 2) 55 (231 / 10) (271 / 5) false)] :=
  ⟨⟨by decide, rfl⟩,
   ((mutex_discipline ui_ready (fresh_cell sample_b) 0 0 0 0 0 (fun _ => 0)
      (server_start id)).2.2.2.2.2.2 (by decide) rfl).trans (by decide!)⟩

end LvglApp

namespace ClientSensor

/-! ## The sensor client (C6, C7) -/

end ClientSensor


/-! ## Rounding to binary32 -/

